import Mathlib

/-
Verification of the per-pixel reflective-disc shader of
shaderRaytracingMirror (src/main.js).

The analytic core of the repository is the GLSL fragment shader embedded in
createRaytracingShaderMaterial: a disc-intersection test (intersectDisc), an
equirectangular background lookup (getColorOfBackground) and the per-pixel
main function.  We embed that shader shallowly over the real numbers:
vec3 becomes a structure of three reals, the GLSL builtins dot, length,
reflect, atan(y, x) and acos become their exact mathematical counterparts,
and the single inout parameter of intersectDisc becomes an explicit
returned value (and, for the frame property, an explicit state record).
-/

namespace Raytrace

/-- Model of the GLSL vec3 type: three real components. -/
@[ext] structure Vec3 where
  x : ℝ
  y : ℝ
  z : ℝ

instance : Add Vec3 := ⟨fun a b => ⟨a.x + b.x, a.y + b.y, a.z + b.z⟩⟩

instance : Sub Vec3 := ⟨fun a b => ⟨a.x - b.x, a.y - b.y, a.z - b.z⟩⟩

noncomputable instance : HMul Vec3 ℝ Vec3 := ⟨fun v t => ⟨v.x * t, v.y * t, v.z * t⟩⟩

noncomputable instance : HMul ℝ Vec3 Vec3 := ⟨fun t v => ⟨t * v.x, t * v.y, t * v.z⟩⟩

noncomputable instance : HDiv Vec3 ℝ Vec3 := ⟨fun v t => ⟨v.x / t, v.y / t, v.z / t⟩⟩

@[simp] theorem add_x (a b : Vec3) : (a + b).x = a.x + b.x := rfl

@[simp] theorem add_y (a b : Vec3) : (a + b).y = a.y + b.y := rfl

@[simp] theorem add_z (a b : Vec3) : (a + b).z = a.z + b.z := rfl

@[simp] theorem sub_x (a b : Vec3) : (a - b).x = a.x - b.x := rfl

@[simp] theorem sub_y (a b : Vec3) : (a - b).y = a.y - b.y := rfl

@[simp] theorem sub_z (a b : Vec3) : (a - b).z = a.z - b.z := rfl

@[simp] theorem mulS_x (v : Vec3) (t : ℝ) : (v * t).x = v.x * t := rfl

@[simp] theorem mulS_y (v : Vec3) (t : ℝ) : (v * t).y = v.y * t := rfl

@[simp] theorem mulS_z (v : Vec3) (t : ℝ) : (v * t).z = v.z * t := rfl

@[simp] theorem smul_x (t : ℝ) (v : Vec3) : (t * v).x = t * v.x := rfl

@[simp] theorem smul_y (t : ℝ) (v : Vec3) : (t * v).y = t * v.y := rfl

@[simp] theorem smul_z (t : ℝ) (v : Vec3) : (t * v).z = t * v.z := rfl

@[simp] theorem divS_x (v : Vec3) (t : ℝ) : (v / t).x = v.x / t := rfl

@[simp] theorem divS_y (v : Vec3) (t : ℝ) : (v / t).y = v.y / t := rfl

@[simp] theorem divS_z (v : Vec3) (t : ℝ) : (v / t).z = v.z / t := rfl

/-- GLSL builtin dot for vec3. -/
def dot (a b : Vec3) : ℝ := a.x * b.x + a.y * b.y + a.z * b.z

/-- GLSL builtin length for vec3: the Euclidean norm. -/
noncomputable def length (v : Vec3) : ℝ := Real.sqrt (dot v v)

/-- GLSL builtin reflect: reflect I N = I - 2 * dot N I * N. -/
noncomputable def reflect (I N : Vec3) : Vec3 := I - (2 * dot N I) * N

/-- GLSL two-argument atan, i.e. the standard atan2: the argument of the
complex number x + i y, with range (-pi, pi] and atan2 0 0 = 0. -/
noncomputable def atan2 (y x : ℝ) : ℝ := Complex.arg ⟨x, y⟩

theorem dot_comm (a b : Vec3) : dot a b = dot b a := by
  simp only [dot]; ring

/-- Embedding of intersectDisc from the fragment shader of src/main.js.
The GLSL function takes the ray start point s as an inout parameter and
returns a bool; here it returns the pair (hit flag, final value of s).
All other parameters of the GLSL function are plain value parameters. -/
noncomputable def intersectDisc (s d c nHat : Vec3) (r : ℝ) : Bool × Vec3 :=
  let deltaN := dot (c - s) nHat
  let dN := dot d nHat
  if dN * deltaN > 0 then
    let i := s + d / dN * deltaN
    if length (i - c) ≤ r then
      (true, i)
    else
      (false, s)
  else
    (false, s)

/-- The full local state of an intersectDisc invocation: one record field per
GLSL parameter.  Used to express the frame property (only s is written). -/
structure DiscState where
  s : Vec3
  d : Vec3
  c : Vec3
  nHat : Vec3
  r : ℝ

/-- Statement-by-statement embedding of intersectDisc as a transformer of its
parameter state: the only assignment to a parameter in the GLSL body is
s = i, inside the doubly guarded hit branch. -/
noncomputable def intersectDiscProc (σ : DiscState) : Bool × DiscState :=
  let deltaN := dot (σ.c - σ.s) σ.nHat
  let dN := dot σ.d σ.nHat
  if dN * deltaN > 0 then
    let i := σ.s + σ.d / dN * deltaN
    if length (i - σ.c) ≤ σ.r then
      (true, { σ with s := i })
    else
      (false, σ)
  else
    (false, σ)

/-- Model of the RGBA colour returned by texture2D / written to gl_FragColor. -/
structure Color where
  r : ℝ
  g : ℝ
  b : ℝ
  a : ℝ

/-- Embedding of getColorOfBackground from the fragment shader: the bound
texture becomes an explicit function from normalised coordinates to colours. -/
noncomputable def getColorOfBackground (tex : ℝ × ℝ → Color) (d : Vec3) : Color :=
  let l := length d
  let phi := atan2 d.z d.x + Real.pi
  let theta := Real.arccos (d.y / l)
  tex (phi / (2 * Real.pi), 1 - theta / Real.pi)

/-- The azimuthal angle computed by getColorOfBackground. -/
noncomputable def phiOf (d : Vec3) : ℝ := atan2 d.z d.x + Real.pi

/-- The polar angle computed by getColorOfBackground. -/
noncomputable def thetaOf (d : Vec3) : ℝ := Real.arccos (d.y / length d)

theorem getColorOfBackground_eq (tex : ℝ × ℝ → Color) (d : Vec3) :
    getColorOfBackground tex d =
      tex (phiOf d / (2 * Real.pi), 1 - thetaOf d / Real.pi) := rfl

/-- Embedding of the fragment-shader main function: per pixel, the varying
intersectionPoint and the uniform cameraPosition determine the ray, the ray
is tested against the fixed disc (centre (3,0,0), normal (1,0,0), radius 1),
the direction is reflected on a hit, and the background is sampled.  The
inout-updated start point res.2 is never read after the call, mirroring the
shader. -/
noncomputable def shaderMain (tex : ℝ × ℝ → Color)
    (intersectionPoint cameraPosition : Vec3) : Color :=
  let s := cameraPosition
  let d := intersectionPoint - cameraPosition
  let nHat : Vec3 := ⟨1, 0, 0⟩
  let res := intersectDisc s d ⟨3, 0, 0⟩ nHat 1
  let d2 := if res.1 = true then reflect d nHat else d
  getColorOfBackground tex d2

theorem intersectDisc_hit_eq (s d c nHat : Vec3) (r : ℝ)
    (h1 : dot d nHat * dot (c - s) nHat > 0)
    (h2 : length (s + d / dot d nHat * dot (c - s) nHat - c) ≤ r) :
    intersectDisc s d c nHat r =
      (true, s + d / dot d nHat * dot (c - s) nHat) := by
  unfold intersectDisc
  rw [if_pos h1, if_pos h2]

theorem intersectDisc_miss_far_eq (s d c nHat : Vec3) (r : ℝ)
    (h1 : dot d nHat * dot (c - s) nHat > 0)
    (h2 : ¬ length (s + d / dot d nHat * dot (c - s) nHat - c) ≤ r) :
    intersectDisc s d c nHat r = (false, s) := by
  unfold intersectDisc
  rw [if_pos h1, if_neg h2]

theorem intersectDisc_miss_back_eq (s d c nHat : Vec3) (r : ℝ)
    (h1 : ¬ dot d nHat * dot (c - s) nHat > 0) :
    intersectDisc s d c nHat r = (false, s) := by
  unfold intersectDisc
  rw [if_neg h1]

theorem intersectDisc_eq (s d c nHat : Vec3) (r : ℝ) :
    intersectDisc s d c nHat r =
      if dot d nHat * dot (c - s) nHat > 0 ∧
          length (s + d / dot d nHat * dot (c - s) nHat - c) ≤ r
      then (true, s + d / dot d nHat * dot (c - s) nHat)
      else (false, s) := by
  by_cases h1 : dot d nHat * dot (c - s) nHat > 0
  · by_cases h2 : length (s + d / dot d nHat * dot (c - s) nHat - c) ≤ r
    · rw [if_pos ⟨h1, h2⟩]
      exact intersectDisc_hit_eq s d c nHat r h1 h2
    · rw [if_neg (fun hc => h2 hc.2)]
      exact intersectDisc_miss_far_eq s d c nHat r h1 h2
  · rw [if_neg (fun hc => h1 hc.1)]
    exact intersectDisc_miss_back_eq s d c nHat r h1

theorem intersectDiscProc_eq (σ : DiscState) :
    intersectDiscProc σ =
      ((intersectDisc σ.s σ.d σ.c σ.nHat σ.r).1,
        { σ with s := (intersectDisc σ.s σ.d σ.c σ.nHat σ.r).2 }) := by
  simp only [intersectDiscProc, intersectDisc]
  split_ifs <;> rfl

theorem dot_ne_zero_of_prod_pos {d c s nHat : Vec3}
    (h1 : dot d nHat * dot (c - s) nHat > 0) : dot d nHat ≠ 0 := by
  intro h0
  rw [h0, zero_mul] at h1
  exact lt_irrefl 0 h1

theorem scenario1_eval :
    intersectDisc ⟨5, 0, 0⟩ ⟨-1, 0, 0⟩ ⟨3, 0, 0⟩ ⟨1, 0, 0⟩ 1 = (true, ⟨3, 0, 0⟩) := by
  have hd : dot (⟨-1, 0, 0⟩ : Vec3) ⟨1, 0, 0⟩ = -1 := by norm_num [dot]
  have hc : dot ((⟨3, 0, 0⟩ : Vec3) - ⟨5, 0, 0⟩) ⟨1, 0, 0⟩ = -2 := by norm_num [dot]
  have hpt : (⟨5, 0, 0⟩ : Vec3) + (⟨-1, 0, 0⟩ : Vec3) / (-1 : ℝ) * (-2 : ℝ) = ⟨3, 0, 0⟩ := by
    ext <;> norm_num
  have h1 : dot (⟨-1, 0, 0⟩ : Vec3) ⟨1, 0, 0⟩ *
      dot ((⟨3, 0, 0⟩ : Vec3) - ⟨5, 0, 0⟩) ⟨1, 0, 0⟩ > 0 := by
    rw [hd, hc]; norm_num
  have h2 : length ((⟨5, 0, 0⟩ : Vec3) + (⟨-1, 0, 0⟩ : Vec3) / dot (⟨-1, 0, 0⟩ : Vec3) ⟨1, 0, 0⟩ *
      dot ((⟨3, 0, 0⟩ : Vec3) - ⟨5, 0, 0⟩) ⟨1, 0, 0⟩ - ⟨3, 0, 0⟩) ≤ 1 := by
    rw [hd, hc, hpt]
    have hz : dot ((⟨3, 0, 0⟩ : Vec3) - ⟨3, 0, 0⟩) ((⟨3, 0, 0⟩ : Vec3) - ⟨3, 0, 0⟩) = 0 := by
      norm_num [dot]
    rw [length, hz, Real.sqrt_zero]
    norm_num
  rw [intersectDisc_hit_eq _ _ _ _ _ h1 h2, hd, hc, hpt]

/-- Claim C1: for every ray start point s, direction d, disc centre c, normal
nHat and radius r, intersectDisc computes deltaN = dot (c - s) nHat and
dN = dot d nHat, reports a forward plane crossing exactly when
dN * deltaN > 0, in that case computes the plane-intersection point
i = s + d * (deltaN / dN), and returns a hit (with s advanced to i) exactly
when additionally length (i - c) ≤ r, the boundary counting as a hit. -/
theorem intersectDisc_spec (s d c nHat : Vec3) (r : ℝ) :
    intersectDisc s d c nHat r =
      if dot d nHat * dot (c - s) nHat > 0 ∧
          length (s + d * (dot (c - s) nHat / dot d nHat) - c) ≤ r
      then (true, s + d * (dot (c - s) nHat / dot d nHat))
      else (false, s) := by
  have key : s + d / dot d nHat * dot (c - s) nHat
      = s + d * (dot (c - s) nHat / dot d nHat) := by
    ext <;> simp <;> ring
  rw [intersectDisc_eq, key]

/-- Claim C3: intersectDisc writes only its inout start-point parameter.  When
it returns true the start point has been set to the computed intersection
point; when it returns false the whole parameter state is exactly the entry
state; in both cases the direction, centre, normal and radius components of
the state are unchanged. -/
theorem intersectDiscProc_frame (σ : DiscState) :
    ((intersectDiscProc σ).1 = true →
      (intersectDiscProc σ).2 =
        { σ with s := σ.s + σ.d / dot σ.d σ.nHat * dot (σ.c - σ.s) σ.nHat }) ∧
    ((intersectDiscProc σ).1 = false → (intersectDiscProc σ).2 = σ) ∧
    (intersectDiscProc σ).2.d = σ.d ∧
    (intersectDiscProc σ).2.c = σ.c ∧
    (intersectDiscProc σ).2.nHat = σ.nHat ∧
    (intersectDiscProc σ).2.r = σ.r := by
  rw [intersectDiscProc_eq, intersectDisc_eq]
  by_cases h1 : dot σ.d σ.nHat * dot (σ.c - σ.s) σ.nHat > 0
  · by_cases h2 : length (σ.s + σ.d / dot σ.d σ.nHat * dot (σ.c - σ.s) σ.nHat - σ.c) ≤ σ.r
    · rw [if_pos ⟨h1, h2⟩]
      refine ⟨fun _ => rfl, fun hcon => ?_, rfl, rfl, rfl, rfl⟩
      simp at hcon
    · rw [if_neg (fun hc => h2 hc.2)]
      exact ⟨fun hcon => by simp at hcon, fun _ => rfl, rfl, rfl, rfl, rfl⟩
  · rw [if_neg (fun hc => h1 hc.1)]
    exact ⟨fun hcon => by simp at hcon, fun _ => rfl, rfl, rfl, rfl, rfl⟩

/-- Witness for claim C3: on the concrete hitting ray from (5,0,0) along
(-1,0,0), the final state keeps the direction, centre, normal and radius of
the entry state and its start point is the computed intersection point. -/
theorem intersectDiscProc_frame_witness :
    (intersectDiscProc ⟨⟨5, 0, 0⟩, ⟨-1, 0, 0⟩, ⟨3, 0, 0⟩, ⟨1, 0, 0⟩, 1⟩).2.d = ⟨-1, 0, 0⟩ ∧
    (intersectDiscProc ⟨⟨5, 0, 0⟩, ⟨-1, 0, 0⟩, ⟨3, 0, 0⟩, ⟨1, 0, 0⟩, 1⟩).2.c = ⟨3, 0, 0⟩ ∧
    (intersectDiscProc ⟨⟨5, 0, 0⟩, ⟨-1, 0, 0⟩, ⟨3, 0, 0⟩, ⟨1, 0, 0⟩, 1⟩).2.nHat = ⟨1, 0, 0⟩ ∧
    (intersectDiscProc ⟨⟨5, 0, 0⟩, ⟨-1, 0, 0⟩, ⟨3, 0, 0⟩, ⟨1, 0, 0⟩, 1⟩).2.r = 1 ∧
    (intersectDiscProc ⟨⟨5, 0, 0⟩, ⟨-1, 0, 0⟩, ⟨3, 0, 0⟩, ⟨1, 0, 0⟩, 1⟩).2.s =
      (⟨5, 0, 0⟩ : Vec3) + (⟨-1, 0, 0⟩ : Vec3) / dot (⟨-1, 0, 0⟩ : Vec3) ⟨1, 0, 0⟩ *
        dot ((⟨3, 0, 0⟩ : Vec3) - ⟨5, 0, 0⟩) ⟨1, 0, 0⟩ := by
  have hfr := intersectDiscProc_frame ⟨⟨5, 0, 0⟩, ⟨-1, 0, 0⟩, ⟨3, 0, 0⟩, ⟨1, 0, 0⟩, 1⟩
  have hhit : (intersectDiscProc ⟨⟨5, 0, 0⟩, ⟨-1, 0, 0⟩, ⟨3, 0, 0⟩, ⟨1, 0, 0⟩, 1⟩).1 = true := by
    rw [intersectDiscProc_eq]
    simp [scenario1_eval]
  refine ⟨hfr.2.2.1, hfr.2.2.2.1, hfr.2.2.2.2.1, hfr.2.2.2.2.2, ?_⟩
  rw [hfr.1 hhit]

/-- Claim C4: for every ray whose direction is parallel to the disc plane,
i.e. dot d nHat = 0, intersectDisc reports no hit and returns the start
point unchanged; the guarded check-then-divide structure means the division
by dN is not reached on this path. -/
theorem intersectDisc_parallel (s d c nHat : Vec3) (r : ℝ)
    (h : dot d nHat = 0) : intersectDisc s d c nHat r = (false, s) := by
  apply intersectDisc_miss_back_eq
  rw [h, zero_mul]
  exact lt_irrefl 0

/-- Witness for claim C4: the ray from (5,0,0) along (0,1,0) is parallel to
the plane of the disc with normal (1,0,0) and produces no hit. -/
theorem intersectDisc_parallel_witness :
    dot (⟨0, 1, 0⟩ : Vec3) ⟨1, 0, 0⟩ = 0 ∧
    intersectDisc ⟨5, 0, 0⟩ ⟨0, 1, 0⟩ ⟨3, 0, 0⟩ ⟨1, 0, 0⟩ 1 = (false, ⟨5, 0, 0⟩) :=
  ⟨by norm_num [dot], intersectDisc_parallel _ _ _ _ _ (by norm_num [dot])⟩

/-- Claim C10: for every ray whose start point lies exactly on the supporting
plane of the disc, i.e. dot (c - s) nHat = 0, intersectDisc returns false
and leaves the start point unchanged for every direction, because the
forward test dN * deltaN > 0 fails when deltaN is zero. -/
theorem intersectDisc_start_on_plane (s d c nHat : Vec3) (r : ℝ)
    (h : dot (c - s) nHat = 0) : intersectDisc s d c nHat r = (false, s) := by
  apply intersectDisc_miss_back_eq
  rw [h, mul_zero]
  exact lt_irrefl 0

/-- Witness for claim C10: a ray starting at the disc centre itself, pointing
straight through the disc along its normal, still produces no hit. -/
theorem intersectDisc_start_on_plane_witness :
    dot ((⟨3, 0, 0⟩ : Vec3) - ⟨3, 0, 0⟩) ⟨1, 0, 0⟩ = 0 ∧
    intersectDisc ⟨3, 0, 0⟩ ⟨1, 0, 0⟩ ⟨3, 0, 0⟩ ⟨1, 0, 0⟩ 1 = (false, ⟨3, 0, 0⟩) :=
  ⟨by norm_num [dot], intersectDisc_start_on_plane _ _ _ _ _ (by norm_num [dot])⟩

/-- Claim C6: whenever intersectDisc accepts, the intersection point written
back into the start point lies in the supporting plane of the disc, i.e.
dot (i - c) nHat = 0 (exactly, in the real-number model), and its distance
from the centre is at most the radius. -/
theorem intersectDisc_hit_point_on_disc (s d c nHat : Vec3) (r : ℝ)
    (h : (intersectDisc s d c nHat r).1 = true) :
    dot ((intersectDisc s d c nHat r).2 - c) nHat = 0 ∧
    length ((intersectDisc s d c nHat r).2 - c) ≤ r := by
  by_cases h1 : dot d nHat * dot (c - s) nHat > 0
  · by_cases h2 : length (s + d / dot d nHat * dot (c - s) nHat - c) ≤ r
    · rw [intersectDisc_hit_eq s d c nHat r h1 h2]
      refine ⟨?_, h2⟩
      have hdN : d.x * nHat.x + d.y * nHat.y + d.z * nHat.z ≠ 0 := by
        simpa [dot] using dot_ne_zero_of_prod_pos h1
      simp only [dot, add_x, add_y, add_z, sub_x, sub_y, sub_z,
        divS_x, divS_y, divS_z, mulS_x, mulS_y, mulS_z]
      field_simp
      ring
    · rw [intersectDisc_miss_far_eq s d c nHat r h1 h2] at h
      simp at h
  · rw [intersectDisc_miss_back_eq s d c nHat r h1] at h
    simp at h

/-- Witness for claim C6: the ray from (5,0,0) along (-1,0,0) hits the disc,
and the returned point lies in the plane of the disc within its radius. -/
theorem intersectDisc_hit_point_on_disc_witness :
    (intersectDisc ⟨5, 0, 0⟩ ⟨-1, 0, 0⟩ ⟨3, 0, 0⟩ ⟨1, 0, 0⟩ 1).1 = true ∧
    dot ((intersectDisc ⟨5, 0, 0⟩ ⟨-1, 0, 0⟩ ⟨3, 0, 0⟩ ⟨1, 0, 0⟩ 1).2 - ⟨3, 0, 0⟩) ⟨1, 0, 0⟩ = 0 ∧
    length ((intersectDisc ⟨5, 0, 0⟩ ⟨-1, 0, 0⟩ ⟨3, 0, 0⟩ ⟨1, 0, 0⟩ 1).2 - ⟨3, 0, 0⟩) ≤ 1 := by
  have hhit : (intersectDisc ⟨5, 0, 0⟩ ⟨-1, 0, 0⟩ ⟨3, 0, 0⟩ ⟨1, 0, 0⟩ 1).1 = true := by
    rw [scenario1_eval]
  have h := intersectDisc_hit_point_on_disc _ _ _ _ _ hhit
  exact ⟨hhit, h.1, h.2⟩

/-- Claim C7: for the fixed disc with centre (3,0,0), normal (1,0,0) and
radius 1, the ray with origin (0,10,0) and direction (5,-10,0) produces no
hit, even though the plane crossing is in the forward direction: the
computed plane-crossing point (3,4,0) lies at distance 4 > 1 from the disc
centre. -/
theorem scenario3_no_hit :
    intersectDisc ⟨0, 10, 0⟩ ⟨5, -10, 0⟩ ⟨3, 0, 0⟩ ⟨1, 0, 0⟩ 1 = (false, ⟨0, 10, 0⟩) ∧
    dot (⟨5, -10, 0⟩ : Vec3) ⟨1, 0, 0⟩ * dot ((⟨3, 0, 0⟩ : Vec3) - ⟨0, 10, 0⟩) ⟨1, 0, 0⟩ > 0 ∧
    length ((⟨0, 10, 0⟩ : Vec3) + (⟨5, -10, 0⟩ : Vec3) / dot (⟨5, -10, 0⟩ : Vec3) ⟨1, 0, 0⟩ *
      dot ((⟨3, 0, 0⟩ : Vec3) - ⟨0, 10, 0⟩) ⟨1, 0, 0⟩ - ⟨3, 0, 0⟩) > 1 := by
  have hd : dot (⟨5, -10, 0⟩ : Vec3) ⟨1, 0, 0⟩ = 5 := by norm_num [dot]
  have hc : dot ((⟨3, 0, 0⟩ : Vec3) - ⟨0, 10, 0⟩) ⟨1, 0, 0⟩ = 3 := by norm_num [dot]
  have hpt : (⟨0, 10, 0⟩ : Vec3) + (⟨5, -10, 0⟩ : Vec3) / (5 : ℝ) * (3 : ℝ) = ⟨3, 4, 0⟩ := by
    ext <;> norm_num
  have hlen : length ((⟨3, 4, 0⟩ : Vec3) - ⟨3, 0, 0⟩) = 4 := by
    have hq : dot ((⟨3, 4, 0⟩ : Vec3) - ⟨3, 0, 0⟩) ((⟨3, 4, 0⟩ : Vec3) - ⟨3, 0, 0⟩) = 16 := by
      norm_num [dot]
    rw [length, hq, show (16 : ℝ) = 4 ^ 2 by norm_num,
      Real.sqrt_sq (by norm_num : (0 : ℝ) ≤ 4)]
  have h1 : dot (⟨5, -10, 0⟩ : Vec3) ⟨1, 0, 0⟩ *
      dot ((⟨3, 0, 0⟩ : Vec3) - ⟨0, 10, 0⟩) ⟨1, 0, 0⟩ > 0 := by
    rw [hd, hc]; norm_num
  have h3 : length ((⟨0, 10, 0⟩ : Vec3) + (⟨5, -10, 0⟩ : Vec3) / dot (⟨5, -10, 0⟩ : Vec3) ⟨1, 0, 0⟩ *
      dot ((⟨3, 0, 0⟩ : Vec3) - ⟨0, 10, 0⟩) ⟨1, 0, 0⟩ - ⟨3, 0, 0⟩) > 1 := by
    rw [hd, hc, hpt, hlen]; norm_num
  exact ⟨intersectDisc_miss_far_eq _ _ _ _ _ h1 (not_le.mpr h3), h1, h3⟩

/-- Claim C5: whenever the disc test accepts, the per-pixel main function
replaces the ray direction d by its mirror reflection d - 2 (dot d nHat) nHat
about the disc normal, without normalising the result, and when the test
rejects d is used unchanged; the resulting direction is fed directly to the
background lookup. -/
theorem shaderMain_reflect_spec (tex : ℝ × ℝ → Color)
    (intersectionPoint cameraPosition : Vec3) :
    shaderMain tex intersectionPoint cameraPosition =
      getColorOfBackground tex
        (if (intersectDisc cameraPosition (intersectionPoint - cameraPosition)
              ⟨3, 0, 0⟩ ⟨1, 0, 0⟩ 1).1 = true
         then (intersectionPoint - cameraPosition) -
            (2 * dot (intersectionPoint - cameraPosition) ⟨1, 0, 0⟩) * (⟨1, 0, 0⟩ : Vec3)
         else intersectionPoint - cameraPosition) := by
  simp only [shaderMain]
  congr 1
  by_cases hb : (intersectDisc cameraPosition (intersectionPoint - cameraPosition)
      ⟨3, 0, 0⟩ ⟨1, 0, 0⟩ 1).1 = true
  · rw [if_pos hb, if_pos hb]
    simp only [reflect]
    rw [dot_comm]
  · rw [if_neg hb, if_neg hb]

/-- Claim C8: reflection about a fixed unit normal is involutive: reflecting
the reflected direction about the same normal returns the original
direction, exactly in the real-number model. -/
theorem reflect_involutive (d nHat : Vec3) (h : length nHat = 1) :
    reflect (reflect d nHat) nHat = d := by
  have hq : nHat.x * nHat.x + nHat.y * nHat.y + nHat.z * nHat.z = 1 := by
    have h1 : dot nHat nHat = 1 := by
      simp only [length] at h
      exact Real.sqrt_eq_one.mp h
    simpa [dot] using h1
  ext
  · simp only [reflect, dot, sub_x, sub_y, sub_z, smul_x, smul_y, smul_z]
    linear_combination (4 * (nHat.x * d.x + nHat.y * d.y + nHat.z * d.z) * nHat.x) * hq
  · simp only [reflect, dot, sub_x, sub_y, sub_z, smul_x, smul_y, smul_z]
    linear_combination (4 * (nHat.x * d.x + nHat.y * d.y + nHat.z * d.z) * nHat.y) * hq
  · simp only [reflect, dot, sub_x, sub_y, sub_z, smul_x, smul_y, smul_z]
    linear_combination (4 * (nHat.x * d.x + nHat.y * d.y + nHat.z * d.z) * nHat.z) * hq

/-- Witness for claim C8: reflecting the direction (2,3,4) twice about the
unit normal (1,0,0) returns (2,3,4). -/
theorem reflect_involutive_witness :
    length (⟨1, 0, 0⟩ : Vec3) = 1 ∧
    reflect (reflect ⟨2, 3, 4⟩ ⟨1, 0, 0⟩) ⟨1, 0, 0⟩ = ⟨2, 3, 4⟩ := by
  have hl : length (⟨1, 0, 0⟩ : Vec3) = 1 := by simp [length, dot]
  exact ⟨hl, reflect_involutive _ _ hl⟩

/-- Claim C9: the per-pixel shader computation is a pure deterministic
function of the interpolated surface position, the camera position and the
bound background texture: two evaluations with the same inputs produce the
same output colour.  In this embedding the shader is a function of exactly
these inputs, so no state written by one invocation can be read by
another. -/
theorem shaderMain_deterministic (tex1 tex2 : ℝ × ℝ → Color)
    (ip1 ip2 cp1 cp2 : Vec3)
    (htex : tex1 = tex2) (hip : ip1 = ip2) (hcp : cp1 = cp2) :
    shaderMain tex1 ip1 cp1 = shaderMain tex2 ip2 cp2 := by
  rw [htex, hip, hcp]

/-- Witness for claim C9: two evaluations at a concrete texture, surface
position and camera position agree. -/
theorem shaderMain_deterministic_witness :
    shaderMain (fun _ => ⟨0, 0, 0, 1⟩) ⟨0, 0, 10⟩ ⟨0, 0, 5⟩ =
      shaderMain (fun _ => ⟨0, 0, 0, 1⟩) ⟨0, 0, 10⟩ ⟨0, 0, 5⟩ :=
  shaderMain_deterministic _ _ _ _ _ _ rfl rfl rfl

/-- Counterexample for claim C2: at the non-zero direction (-1,0,0) the
azimuthal angle phi = atan2 0 (-1) + pi equals 2 pi exactly, which is not
in the half-open range [0, 2 pi) asserted by the claim; atan2 has range
(-pi, pi], so phi lies in (0, 2 pi]. -/
theorem bg_phi_range_counterexample :
    (⟨-1, 0, 0⟩ : Vec3) ≠ ⟨0, 0, 0⟩ ∧
    phiOf ⟨-1, 0, 0⟩ = 2 * Real.pi ∧
    ¬ phiOf ⟨-1, 0, 0⟩ < 2 * Real.pi := by
  have hphi : phiOf ⟨-1, 0, 0⟩ = 2 * Real.pi := by
    have hcx : (⟨(-1 : ℝ), (0 : ℝ)⟩ : ℂ) = -1 := by
      apply Complex.ext <;> simp
    show Complex.arg ⟨(-1 : ℝ), (0 : ℝ)⟩ + Real.pi = 2 * Real.pi
    rw [hcx, Complex.arg_neg_one]
    ring
  refine ⟨?_, hphi, ?_⟩
  · intro hcon
    have hx := congrArg Vec3.x hcon
    norm_num at hx
  · rw [hphi]
    exact lt_irrefl _

/-- Claim C2, as amended: for every non-zero direction d,
getColorOfBackground computes phi = atan2 d.z d.x + pi, lying in the range
(0, 2 pi] (not [0, 2 pi): the value 2 pi is attained), and
theta = arccos (d.y / length d) lying in [0, pi], samples the texture at
the normalised coordinates (phi / (2 pi), 1 - theta / pi), and both
coordinates lie within [0, 1]. -/
theorem bg_sampling_range (tex : ℝ × ℝ → Color) (d : Vec3)
    (hd : d ≠ ⟨0, 0, 0⟩) :
    getColorOfBackground tex d =
      tex (phiOf d / (2 * Real.pi), 1 - thetaOf d / Real.pi) ∧
    0 < phiOf d ∧ phiOf d ≤ 2 * Real.pi ∧
    0 ≤ thetaOf d ∧ thetaOf d ≤ Real.pi ∧
    0 ≤ phiOf d / (2 * Real.pi) ∧ phiOf d / (2 * Real.pi) ≤ 1 ∧
    0 ≤ 1 - thetaOf d / Real.pi ∧ 1 - thetaOf d / Real.pi ≤ 1 := by
  obtain ⟨h1, h2⟩ := Set.mem_Ioc.mp (Complex.arg_mem_Ioc ⟨d.x, d.z⟩)
  have hpi : 0 < Real.pi := Real.pi_pos
  have hphi1 : 0 < phiOf d := by
    simp only [phiOf, atan2]; linarith
  have hphi2 : phiOf d ≤ 2 * Real.pi := by
    simp only [phiOf, atan2]; linarith
  have hth1 : 0 ≤ thetaOf d := Real.arccos_nonneg _
  have hth2 : thetaOf d ≤ Real.pi := Real.arccos_le_pi _
  have hthdiv : thetaOf d / Real.pi ≤ 1 := by
    rw [div_le_one hpi]; exact hth2
  have hthdiv0 : 0 ≤ thetaOf d / Real.pi := div_nonneg hth1 hpi.le
  refine ⟨rfl, hphi1, hphi2, hth1, hth2, ?_, ?_, ?_, ?_⟩
  · exact div_nonneg hphi1.le (by linarith)
  · rw [div_le_one (by linarith)]; exact hphi2
  · linarith
  · linarith

/-- Witness for claim C2, as amended: at the non-zero direction (1,0,0) the
sampled coordinates are in range. -/
theorem bg_sampling_range_witness :
    (⟨1, 0, 0⟩ : Vec3) ≠ ⟨0, 0, 0⟩ ∧
    0 ≤ phiOf ⟨1, 0, 0⟩ / (2 * Real.pi) ∧ phiOf ⟨1, 0, 0⟩ / (2 * Real.pi) ≤ 1 ∧
    0 ≤ 1 - thetaOf ⟨1, 0, 0⟩ / Real.pi ∧ 1 - thetaOf ⟨1, 0, 0⟩ / Real.pi ≤ 1 := by
  have hne : (⟨1, 0, 0⟩ : Vec3) ≠ ⟨0, 0, 0⟩ := by
    intro hcon
    have hx := congrArg Vec3.x hcon
    norm_num at hx
  have h := bg_sampling_range (fun _ => ⟨0, 0, 0, 1⟩) ⟨1, 0, 0⟩ hne
  exact ⟨hne, h.2.2.2.2.2.1, h.2.2.2.2.2.2.1, h.2.2.2.2.2.2.2.1, h.2.2.2.2.2.2.2.2⟩

end Raytrace
